import Mathlib

/-!
# MINI-COFRE vault engine: shallow embedding and verification

This file embeds the core of the MINI-COFRE encrypted secret store and
proves properties of it:

* `types.ts` — the `VaultItem` / `StoredVault` data model;
* `services/cryptoService.ts` — `getKey`, `encryptVault`, `decryptVault`;
* `services/storageService.ts` — `saveVault`, `loadVault`, `hasVault`;
* `hooks/useVault.ts` — the controller state machine: `lock`, `setupPin`,
  `unlock`, `saveItems`, `addItem`, `updateItem`, `deleteItem`.

Modelling conventions:

* The WebCrypto AES-256-GCM primitive (`crypto.subtle.encrypt/decrypt`) is an
  external platform primitive; it is modelled as an ideal authenticated
  cipher: a ciphertext value records the deriving key, the nonce and the
  serialized payload, and decryption succeeds exactly when the key derived
  from the supplied PIN and embedded salt matches the one used at sealing
  time and the payload deserializes.  This is the standard symbolic model of
  an AEAD: authentication failures (wrong key, tampering) are failures by
  construction.
* `crypto.getRandomValues(new Uint8Array(n))` is modelled by drawing `n`
  bytes from an entropy stream `Nat → Nat` supplied to each sealing call.
* The base64 transport (`bufToB64` / `b64ToBuf`) is a bijection between byte
  arrays and their base64 strings; envelope fields hold the decoded bytes
  directly (`List Nat`, each `% 256`).
* `JSON.stringify` / `JSON.parse` of the item array is modelled at the
  object-field level: an item serializes to its list of present
  `(fieldName, value)` pairs (`undefined` optional fields are omitted,
  exactly as `JSON.stringify` omits them), and parsing reads the fields back.
* `localStorage` is a `Storage` value holding an optional raw blob; a blob
  that `JSON.parse` rejects is the `corrupt` case.  React `useState` cells of
  the hook become the fields of `HookState`; each hook operation is a
  function on `World = HookState × Storage` computing the settled values of
  those cells after the operation completes.
-/

namespace MiniCofre

/-- `ItemCategory` from `types.ts`. -/
inductive ItemCategory where
  | Login
  | CreditCard
  | WiFi
  | Note
  | Other
deriving DecidableEq, Repr

/-- The string value of each `ItemCategory` enum member (`types.ts`). -/
def categoryString : ItemCategory → String
  | .Login => "Login/Senha"
  | .CreditCard => "Cartão de Crédito"
  | .WiFi => "Wi-Fi"
  | .Note => "Nota Secreta"
  | .Other => "Outros"

/-- Recover the enum member from its string value (the runtime category field
of a parsed item is just this string). -/
def categoryOfString (s : String) : Option ItemCategory :=
  if s = "Login/Senha" then some .Login
  else if s = "Cartão de Crédito" then some .CreditCard
  else if s = "Wi-Fi" then some .WiFi
  else if s = "Nota Secreta" then some .Note
  else if s = "Outros" then some .Other
  else none

/-- `VaultItem` from `types.ts`.  `secondaryField` and `notes` are optional
(`?:` in TypeScript). -/
structure VaultItem where
  id : String
  title : String
  category : ItemCategory
  primaryField : String
  secondaryField : Option String
  notes : Option String
deriving DecidableEq, Repr

/-- One serialized item: its list of present JSON object fields, in the
order `JSON.stringify` emits them. -/
abbrev ItemFields := List (String × String)

/-- Field-level model of `JSON.stringify` on one item: optional fields that
are `undefined` are omitted from the object. -/
def serializeItem (it : VaultItem) : ItemFields :=
  [("id", it.id), ("title", it.title),
   ("category", categoryString it.category),
   ("primaryField", it.primaryField)]
    ++ (match it.secondaryField with
        | some s => [("secondaryField", s)]
        | none => [])
    ++ (match it.notes with
        | some s => [("notes", s)]
        | none => [])

/-- Field-level model of reading one parsed item back. -/
def parseItem (fields : ItemFields) : Option VaultItem :=
  match fields.lookup "id", fields.lookup "title",
        (fields.lookup "category").bind categoryOfString,
        fields.lookup "primaryField" with
  | some i, some t, some c, some p =>
      some ⟨i, t, c, p, fields.lookup "secondaryField", fields.lookup "notes"⟩
  | _, _, _, _ => none

/-- `JSON.stringify(items)` at the field level. -/
def serializeItems (items : List VaultItem) : List ItemFields :=
  items.map serializeItem

/-- `JSON.parse(decryptedString) as VaultItem[]` at the field level. -/
def parseItems : List ItemFields → Option (List VaultItem)
  | [] => some []
  | f :: rest =>
      match parseItem f, parseItems rest with
      | some it, some its => some (it :: its)
      | _, _ => none

/-- The key object produced by `getKey` in `cryptoService.ts`: it records the
derivation algorithm parameters (the `deriveKey` call's fixed constants) and
the inputs `(pin, salt)`.  Two keys are equal exactly when all of these
agree, which is the ideal model of PBKDF2. -/
structure DerivedKey where
  keyAlgo : String
  hash : String
  iterations : Nat
  outAlgo : String
  outLength : Nat
  pin : String
  salt : List Nat
deriving DecidableEq, Repr

/-- `const ITERATIONS = 100000` in `cryptoService.ts`. -/
def ITERATIONS : Nat := 100000

/-- `getKey(pin, salt)` from `cryptoService.ts`: PBKDF2 over SHA-256 with
100000 iterations deriving a 256-bit AES-GCM key. -/
def getKey (pin : String) (salt : List Nat) : DerivedKey :=
  { keyAlgo := "PBKDF2"
    hash := "SHA-256"
    iterations := ITERATIONS
    outAlgo := "AES-GCM"
    outLength := 256
    pin := pin
    salt := salt }

/-- Ideal-AEAD ciphertext: the output of `crypto.subtle.encrypt` under a
derived key and nonce over the serialized item array.  Decryption data is
recoverable exactly from a matching key (authenticated encryption). -/
structure Ctext where
  key : DerivedKey
  iv : List Nat
  payload : List ItemFields
deriving DecidableEq, Repr

/-- `StoredVault` from `types.ts`; the three fields hold the base64-decoded
bytes (`salt`, `iv`) and the ciphertext (`data`). -/
structure StoredVault where
  iv : List Nat
  salt : List Nat
  data : Ctext
deriving DecidableEq, Repr

/-- An entropy stream standing for the platform's secure random source. -/
abbrev Entropy := Nat → Nat

/-- `crypto.getRandomValues(new Uint8Array(n))`, drawing `n` fresh bytes
from the stream starting at position `pos`. -/
def getRandomValues (e : Entropy) (n : Nat) (pos : Nat) : List Nat :=
  (List.range n).map (fun i => e (pos + i) % 256)

/-- `encryptVault(items, pin)` from `cryptoService.ts`.  Each call draws a
fresh 16-byte salt and a fresh 12-byte nonce from its own entropy stream,
derives the key from `(pin, salt)` and seals the serialized items. -/
def encryptVault (items : List VaultItem) (pin : String) (e : Entropy) :
    StoredVault :=
  let salt := getRandomValues e 16 0
  let iv := getRandomValues e 12 16
  let key := getKey pin salt
  { iv := iv
    salt := salt
    data := { key := key, iv := iv, payload := serializeItems items } }

/-- The single generic error message `decryptVault` throws on any failure. -/
def authMsg : String := "Invalid PIN or corrupted data."

/-- `decryptVault(storedVault, pin)` from `cryptoService.ts`.  The whole body
runs in one `try`: a key mismatch (wrong PIN), a nonce mismatch or an
unparseable payload (tampering) all land in the same `catch`, which throws
the one generic error. -/
def decryptVault (sv : StoredVault) (pin : String) :
    Except String (List VaultItem) :=
  let key := getKey pin sv.salt
  if sv.data.key = key ∧ sv.data.iv = sv.iv then
    match parseItems sv.data.payload with
    | some items => .ok items
    | none => .error authMsg
  else .error authMsg

/-- A raw persisted blob: either a string `JSON.parse` accepts as a
`StoredVault`, or one it throws on. -/
inductive RawBlob where
  | parsed (v : StoredVault)
  | corrupt (raw : String)
deriving DecidableEq

/-- The `localStorage` slot under `VAULT_KEY` (`storageService.ts`). -/
structure Storage where
  blob : Option RawBlob
deriving DecidableEq

/-- `saveVault` from `storageService.ts`.  `writeOk` says whether the
backend write (`localStorage.setItem`) succeeds; on failure the function
catches the error, logs it and returns normally, leaving storage unchanged
and raising nothing to the caller. -/
def saveVault (writeOk : Bool) (v : StoredVault) (st : Storage) : Storage :=
  if writeOk then { blob := some (.parsed v) } else st

/-- `loadVault` from `storageService.ts`: absent slot gives `null`, and a
blob `JSON.parse` throws on is caught and also gives `null`. -/
def loadVault (st : Storage) : Option StoredVault :=
  match st.blob with
  | some (.parsed v) => some v
  | _ => none

/-- `hasVault` from `storageService.ts`: the slot is non-null, however
corrupt its contents. -/
def hasVault (st : Storage) : Bool :=
  st.blob.isSome

/-- The `useState` cells of `useVault`. -/
structure HookState where
  items : List VaultItem
  isUnlocked : Bool
  hasPin : Bool
  error : Option String
  isLoading : Bool
deriving DecidableEq

/-- The hook state together with the storage backend. -/
structure World where
  state : HookState
  storage : Storage
deriving DecidableEq

/-- The mount `useEffect` of `useVault` (success path): probes storage and
sets `hasPin`. -/
def initState (st : Storage) : HookState :=
  { items := []
    isUnlocked := false
    hasPin := hasVault st
    error := none
    isLoading := false }

/-- `lock` from `useVault.ts`: clears items, unlock flag and error; touches
neither `hasPin`, `isLoading` nor storage. -/
def lock (w : World) : World :=
  { w with state :=
      { w.state with items := [], isUnlocked := false, error := none } }

/-- `setupPin` from `useVault.ts`: seals an empty collection under `pin`,
writes it via `saveVault` (whose failures never escape) and then sets
`hasPin`/`isUnlocked` unconditionally. -/
def setupPin (pin : String) (e : Entropy) (writeOk : Bool) (w : World) :
    World :=
  let newVault := encryptVault [] pin e
  let st' := saveVault writeOk newVault w.storage
  { state :=
      { w.state with
          hasPin := true
          isUnlocked := true
          items := []
          error := none
          isLoading := false }
    storage := st' }

/-- `unlock` from `useVault.ts`: loads the stored envelope (throwing
`"Vault not found."` when `loadVault` gives `null`), decrypts it, and on
success installs the items and the unlock flag; any thrown error is caught
and surfaced in `error`. -/
def unlock (pin : String) (w : World) : World :=
  match loadVault w.storage with
  | none =>
      { w with state :=
          { w.state with
              error := some "Vault not found."
              isLoading := false } }
  | some sv =>
      match decryptVault sv pin with
      | .ok its =>
          { w with state :=
              { w.state with
                  items := its
                  isUnlocked := true
                  error := none
                  isLoading := false } }
      | .error msg =>
          { w with state :=
              { w.state with
                  error := some msg
                  isLoading := false } }

/-- `saveItems` from `useVault.ts`: re-encrypts `newItems` under `pin`
(without any verification against the stored envelope), writes, then
installs `newItems` in memory.  Since `saveVault` swallows write failures,
`setItems(newItems)` runs unconditionally. -/
def saveItems (pin : String) (newItems : List VaultItem) (e : Entropy)
    (writeOk : Bool) (w : World) : World :=
  let encrypted := encryptVault newItems pin e
  let st' := saveVault writeOk encrypted w.storage
  { state := { w.state with items := newItems }, storage := st' }

/-- `addItem` from `useVault.ts`: `newId` stands for the `uuidv4()` draw. -/
def addItem (item : VaultItem) (pin : String) (newId : String) (e : Entropy)
    (writeOk : Bool) (w : World) : World :=
  saveItems pin (w.state.items ++ [{ item with id := newId }]) e writeOk w

/-- `updateItem` from `useVault.ts`. -/
def updateItem (updatedItem : VaultItem) (pin : String) (e : Entropy)
    (writeOk : Bool) (w : World) : World :=
  saveItems pin
    (w.state.items.map (fun it =>
      if it.id = updatedItem.id then updatedItem else it))
    e writeOk w

/-- `deleteItem` from `useVault.ts`. -/
def deleteItem (id : String) (pin : String) (e : Entropy) (writeOk : Bool)
    (w : World) : World :=
  saveItems pin (w.state.items.filter (fun it => it.id ≠ id)) e writeOk w

end MiniCofre

/-! ## Decidability and concrete sample values -/

deriving instance DecidableEq for Except

namespace MiniCofre

/-- A deterministic stand-in entropy stream (all zero bytes). -/
def entropyA : Entropy := fun _ => 0

/-- A second, distinct stand-in entropy stream (all one bytes). -/
def entropyB : Entropy := fun _ => 1

/-- A concrete stored item used in the concrete scenarios. -/
def sampleItem : VaultItem :=
  { id := "id-1"
    title := "Email"
    category := .Login
    primaryField := "a@b.com"
    secondaryField := some "pw"
    notes := none }

/-- A draft item (id still empty) about to be added. -/
def newItemDraft : VaultItem :=
  { id := ""
    title := "Site"
    category := .Login
    primaryField := "user"
    secondaryField := some "secret"
    notes := none }

/-- An update target whose id is absent from the collection. -/
def missingItem : VaultItem :=
  { id := "missing"
    title := "Ghost"
    category := .Note
    primaryField := "x"
    secondaryField := none
    notes := none }

/-- A concrete world: vault set up with PIN `"1234"` holding `sampleItem`,
currently unlocked. -/
def worldUnlocked : World :=
  { state :=
      { items := [sampleItem]
        isUnlocked := true
        hasPin := true
        error := none
        isLoading := false }
    storage := { blob := some (.parsed (encryptVault [sampleItem] "1234" entropyA)) } }

/-! ## Serialization helper lemmas -/

/-- One item's fields round-trip through serialization. -/
theorem parseItem_serializeItem (it : VaultItem) :
    parseItem (serializeItem it) = some it := by
  rcases it with ⟨i, t, c, p, sf, nt⟩
  cases c <;> cases sf <;> cases nt <;> rfl

/-- The whole item array round-trips through serialization. -/
theorem parseItems_serializeItems (items : List VaultItem) :
    parseItems (serializeItems items) = some items := by
  induction items with
  | nil => rfl
  | cons it rest ih =>
      show (match parseItem (serializeItem it),
                  parseItems (serializeItems rest) with
            | some a, some b => some (a :: b)
            | _, _ => none) = some (it :: rest)
      rw [parseItem_serializeItem, ih]

/-- Mapping a function that fixes every element of a list is the identity. -/
theorem map_fixes_of_forall {α : Type} (f : α → α) (l : List α)
    (h : ∀ x ∈ l, f x = x) : l.map f = l := by
  induction l with
  | nil => rfl
  | cons a l ih =>
      simp only [List.map_cons, h a (List.mem_cons_self a l)]
      exact congrArg _ (ih fun x hx => h x (List.mem_cons_of_mem a hx))

/-- Filtering with a predicate every element satisfies is the identity. -/
theorem filter_fixes_of_forall {α : Type} (p : α → Bool) (l : List α)
    (h : ∀ x ∈ l, p x = true) : l.filter p = l := by
  induction l with
  | nil => rfl
  | cons a l ih =>
      simp only [List.filter_cons, h a (List.mem_cons_self a l), if_pos]
      exact congrArg _ (ih fun x hx => h x (List.mem_cons_of_mem a hx))

end MiniCofre

namespace MiniCofre

/-! ## Crypto service properties -/

/-- C4: sealing any ItemCollection under a PIN and opening the resulting
envelope with the same PIN returns exactly the collection, including the
serialization round-trip of every item's fields. -/
theorem seal_open_roundtrip (items : List VaultItem) (pin : String)
    (e : Entropy) :
    decryptVault (encryptVault items pin e) pin = .ok items := by
  simp [decryptVault, encryptVault, parseItems_serializeItems]

/-- C5: opening an envelope sealed under one PIN with a different PIN fails
with the single generic authentication error, and every failing open — in
particular one on a tampered or truncated envelope — produces that same
single error, so the cases are not distinguished to the caller. -/
theorem open_wrong_pin_single_generic_error :
    (∀ (items : List VaultItem) (p1 p2 : String) (e : Entropy), p1 ≠ p2 →
       decryptVault (encryptVault items p1 e) p2 = .error authMsg)
    ∧ (∀ (sv : StoredVault) (pin : String),
         (∀ its : List VaultItem, decryptVault sv pin ≠ .ok its) →
         decryptVault sv pin = .error authMsg) := by
  constructor
  · intro items p1 p2 e hne
    have hcond : ¬ ((encryptVault items p1 e).data.key
          = getKey p2 (encryptVault items p1 e).salt ∧
        (encryptVault items p1 e).data.iv = (encryptVault items p1 e).iv) := by
      rintro ⟨h1, -⟩
      exact hne (congrArg DerivedKey.pin h1)
    simp [decryptVault, hcond]
  · intro sv pin h
    by_cases hc : sv.data.key = getKey pin sv.salt ∧ sv.data.iv = sv.iv
    · rcases hp : parseItems sv.data.payload with _ | its
      · simp [decryptVault, hc, hp]
      · exact absurd (by simp [decryptVault, hc, hp]) (h its)
    · simp [decryptVault, hc]

/-- A sealed envelope whose salt bytes were afterwards tampered with. -/
def tamperedVault : StoredVault :=
  { encryptVault [sampleItem] "1234" entropyA with salt := [9] }

/-- Witness for C5 at concrete inputs: PIN `"9999"` against an envelope
sealed under `"1234"`, and a salt-tampered envelope with the right PIN. -/
theorem open_wrong_pin_single_generic_error_witness :
    decryptVault (encryptVault [sampleItem] "1234" entropyA) "9999"
      = .error authMsg
    ∧ decryptVault tamperedVault "1234" = .error authMsg :=
  ⟨open_wrong_pin_single_generic_error.1 [sampleItem] "1234" "9999" entropyA
     (by decide),
   open_wrong_pin_single_generic_error.2 tamperedVault "1234"
     (fun its h => by
       rw [show decryptVault tamperedVault "1234" = .error authMsg by decide]
         at h
       exact Except.noConfusion h)⟩

/-- C6: key derivation is the deterministic function `getKey` of
`(pin, salt)` with the fixed parameters PBKDF2 / SHA-256 / 100000
iterations / 256-bit AES-GCM key, used identically by seal and open; and
each seal call takes its 16-byte salt and 12-byte nonce from its own fresh
entropy draw, so distinct draws give distinct salts and nonces. -/
theorem getKey_fixed_params_and_fresh_salt_nonce :
    (∀ (pin : String) (salt : List Nat),
       (getKey pin salt).keyAlgo = "PBKDF2" ∧
       (getKey pin salt).hash = "SHA-256" ∧
       (getKey pin salt).iterations = 100000 ∧
       (getKey pin salt).outAlgo = "AES-GCM" ∧
       (getKey pin salt).outLength = 256)
    ∧ (∀ (items : List VaultItem) (pin : String) (e : Entropy),
         (encryptVault items pin e).data.key
           = getKey pin (encryptVault items pin e).salt)
    ∧ (∀ (sv : StoredVault) (pin : String) (its : List VaultItem),
         decryptVault sv pin = .ok its → sv.data.key = getKey pin sv.salt)
    ∧ (∀ (items : List VaultItem) (pin : String) (e : Entropy),
         (encryptVault items pin e).salt = getRandomValues e 16 0 ∧
         (encryptVault items pin e).iv = getRandomValues e 12 16 ∧
         (encryptVault items pin e).salt.length = 16 ∧
         (encryptVault items pin e).iv.length = 12)
    ∧ (∀ (i1 : List VaultItem) (p1 : String) (e1 : Entropy)
         (i2 : List VaultItem) (p2 : String) (e2 : Entropy),
         (getRandomValues e1 16 0 ≠ getRandomValues e2 16 0 →
            (encryptVault i1 p1 e1).salt ≠ (encryptVault i2 p2 e2).salt) ∧
         (getRandomValues e1 12 16 ≠ getRandomValues e2 12 16 →
            (encryptVault i1 p1 e1).iv ≠ (encryptVault i2 p2 e2).iv)) := by
  refine ⟨fun pin salt => ⟨rfl, rfl, rfl, rfl, rfl⟩,
          fun items pin e => rfl, ?_, ?_, ?_⟩
  · intro sv pin its h
    by_cases hc : sv.data.key = getKey pin sv.salt ∧ sv.data.iv = sv.iv
    · exact hc.1
    · simp [decryptVault, hc] at h
  · intro items pin e
    refine ⟨rfl, rfl, ?_, ?_⟩ <;> simp [encryptVault, getRandomValues]
  · intro i1 p1 e1 i2 p2 e2
    exact ⟨fun hne h => hne h, fun hne h => hne h⟩

/-- Witness for C6 at concrete inputs: the iteration count of a concrete
derived key, and distinct entropy streams giving distinct salts. -/
theorem getKey_fixed_params_and_fresh_salt_nonce_witness :
    (getKey "1234" []).iterations = 100000 ∧
    (encryptVault [] "1234" entropyA).salt
      ≠ (encryptVault [] "1234" entropyB).salt :=
  ⟨(getKey_fixed_params_and_fresh_salt_nonce.1 "1234" []).2.2.1,
   (getKey_fixed_params_and_fresh_salt_nonce.2.2.2.2
      [] "1234" entropyA [] "1234" entropyB).1 (by decide)⟩

end MiniCofre

namespace MiniCofre

/-! ## Vault controller state machine properties -/

/-- A failed decryption makes `unlock` change only `error` and `isLoading`. -/
theorem unlock_fail_eq (w : World) (sv : StoredVault) (pin : String)
    (hload : loadVault w.storage = some sv)
    (hfail : decryptVault sv pin = .error authMsg) :
    unlock pin w =
      { w with state :=
          { w.state with error := some authMsg, isLoading := false } } := by
  simp [unlock, hload, hfail]

/-- Any run of failed unlocks preserves the unlock flag, the items and the
stored envelope. -/
theorem unlock_fail_foldl (sv : StoredVault) (pins : List String) :
    ∀ w : World, loadVault w.storage = some sv →
      (∀ q ∈ pins, decryptVault sv q = .error authMsg) →
      (pins.foldl (fun a q => unlock q a) w).state.isUnlocked
          = w.state.isUnlocked ∧
      (pins.foldl (fun a q => unlock q a) w).state.items = w.state.items ∧
      (pins.foldl (fun a q => unlock q a) w).storage = w.storage := by
  induction pins with
  | nil => exact fun w _ _ => ⟨rfl, rfl, rfl⟩
  | cons q qs ih =>
      intro w hload hall
      have hq := hall q (List.mem_cons_self q qs)
      have hw' := unlock_fail_eq w sv q hload hq
      have hload' : loadVault (unlock q w).storage = some sv := by
        rw [hw']; exact hload
      have hrest := ih (unlock q w) hload'
        (fun r hr => hall r (List.mem_cons_of_mem q hr))
      simp only [List.foldl_cons]
      refine ⟨?_, ?_, ?_⟩
      · rw [hrest.1, hw']
      · rw [hrest.2.1, hw']
      · rw [hrest.2.2, hw']

/-- C7: a failed `unlock` surfaces the authentication error and leaves the
unlock flag, the items, `hasPin` and the stored envelope unchanged (the
vault stays locked); a successful `unlock` transitions to unlocked holding
exactly the decrypted collection; and no lockout exists: any number of
consecutive failed unlocks still leaves the state locked with storage
untouched. -/
theorem unlock_locked_no_lockout (w : World) (sv : StoredVault)
    (hload : loadVault w.storage = some sv) :
    (∀ pin : String, decryptVault sv pin = .error authMsg →
       (unlock pin w).state.isUnlocked = w.state.isUnlocked ∧
       (unlock pin w).state.items = w.state.items ∧
       (unlock pin w).state.hasPin = w.state.hasPin ∧
       (unlock pin w).state.error = some authMsg ∧
       (unlock pin w).storage = w.storage)
    ∧ (∀ (pin : String) (its : List VaultItem),
         decryptVault sv pin = .ok its →
         (unlock pin w).state.isUnlocked = true ∧
         (unlock pin w).state.items = its)
    ∧ (∀ pins : List String,
         (∀ q ∈ pins, decryptVault sv q = .error authMsg) →
         (pins.foldl (fun a q => unlock q a) w).state.isUnlocked
             = w.state.isUnlocked ∧
         (pins.foldl (fun a q => unlock q a) w).state.items
             = w.state.items ∧
         (pins.foldl (fun a q => unlock q a) w).storage = w.storage) := by
  refine ⟨?_, ?_, fun pins hall => unlock_fail_foldl sv pins w hload hall⟩
  · intro pin hfail
    rw [unlock_fail_eq w sv pin hload hfail]
    exact ⟨rfl, rfl, rfl, rfl, rfl⟩
  · intro pin its hok
    constructor <;> simp [unlock, hload, hok]

/-- The envelope persisted by the concrete scenario setup. -/
def storedEnvelope : StoredVault := encryptVault [sampleItem] "1234" entropyA

/-- The storage holding that envelope. -/
def vaultStorage : Storage := { blob := some (.parsed storedEnvelope) }

/-- The freshly mounted (locked) world over that storage. -/
def lockedWorld : World :=
  { state := initState vaultStorage, storage := vaultStorage }

/-- Witness for C7 at concrete inputs: two consecutive wrong PINs leave the
vault locked, and a single wrong PIN surfaces the authentication error. -/
theorem unlock_locked_no_lockout_witness :
    (["9999", "0000"].foldl (fun a q => unlock q a) lockedWorld).state.isUnlocked
        = lockedWorld.state.isUnlocked
    ∧ (unlock "9999" lockedWorld).state.error = some authMsg :=
  ⟨((unlock_locked_no_lockout lockedWorld storedEnvelope rfl).2.2
      ["9999", "0000"] (by decide)).1,
   ((unlock_locked_no_lockout lockedWorld storedEnvelope rfl).1
      "9999" (by decide)).2.2.2.1⟩

/-- C8: `lock` always succeeds, empties the in-memory items, clears the
unlock flag and the error, keeps `hasPin`, and neither reads nor writes the
persistence backend: storage is unchanged and the resulting hook state does
not depend on the storage contents. -/
theorem lock_discards_memory_never_touches_storage
    (w : World) (s : HookState) (st1 st2 : Storage) :
    (lock w).storage = w.storage ∧
    (lock w).state.items = [] ∧
    (lock w).state.isUnlocked = false ∧
    (lock w).state.error = none ∧
    (lock w).state.hasPin = w.state.hasPin ∧
    (lock ⟨s, st1⟩).state = (lock ⟨s, st2⟩).state :=
  ⟨rfl, rfl, rfl, rfl, rfl, rfl⟩

/-- C10: `lock` is total (defined on every state, never returns an error)
and idempotent: from any state it yields empty items, a cleared unlock flag
and a cleared error, and applying it twice equals applying it once. -/
theorem lock_total_idempotent (w : World) :
    lock (lock w) = lock w ∧
    (lock w).state.items = [] ∧
    (lock w).state.isUnlocked = false ∧
    (lock w).state.error = none :=
  ⟨rfl, rfl, rfl, rfl⟩

/-- C9: a persisted blob that does not parse makes `loadVault` return none
while `hasVault` still reports true, so the mounted controller reports a
configured PIN, and `unlock` on it fails with `"Vault not found."` — a
different error from the authentication error — leaving the unlock flag
unchanged. -/
theorem corrupt_blob_vault_not_found
    (raw : String) (s : HookState) (pin : String) :
    loadVault { blob := some (.corrupt raw) } = none ∧
    hasVault { blob := some (.corrupt raw) } = true ∧
    (initState { blob := some (.corrupt raw) }).hasPin = true ∧
    (unlock pin ⟨s, { blob := some (.corrupt raw) }⟩).state.error
        = some "Vault not found." ∧
    (unlock pin ⟨s, { blob := some (.corrupt raw) }⟩).state.isUnlocked
        = s.isUnlocked ∧
    some "Vault not found." ≠ some authMsg :=
  ⟨rfl, rfl, rfl, rfl, rfl, by decide⟩

end MiniCofre

namespace MiniCofre

/-! ## Mutation protocol: divergences from the specified behavior -/

/-- C1: the mutation path (`addItem` → `saveItems`) performs no verifying
`open` of the persisted envelope: invoked with a wrong PIN on a vault
sealed under `"1234"`, it reports no error and replaces the persisted
envelope with one sealed under the wrong PIN, which the original PIN can no
longer open (and the wrong PIN can). -/
theorem addItem_no_reverification :
    (addItem newItemDraft "9999" "id-2" entropyB true worldUnlocked).state.error
        = none ∧
    (addItem newItemDraft "9999" "id-2" entropyB true worldUnlocked).storage.blob
        = some (.parsed (encryptVault
            [sampleItem, { newItemDraft with id := "id-2" }] "9999" entropyB)) ∧
    decryptVault
        (encryptVault [sampleItem, { newItemDraft with id := "id-2" }]
          "9999" entropyB) "1234" = .error authMsg ∧
    decryptVault
        (encryptVault [sampleItem, { newItemDraft with id := "id-2" }]
          "9999" entropyB) "9999"
        = .ok [sampleItem, { newItemDraft with id := "id-2" }] ∧
    (addItem newItemDraft "9999" "id-2" entropyB true worldUnlocked).storage
        ≠ worldUnlocked.storage :=
  ⟨rfl, rfl, by decide, by decide, by decide⟩

/-- The world before any vault is configured. -/
def emptyWorld : World :=
  { state := initState { blob := none }, storage := { blob := none } }

/-- C2: when the backend write fails, `setupPin` still reports success: the
write failure is swallowed inside `saveVault`, nothing is persisted, yet the
hook ends with `hasPin = true`, `isUnlocked = true` and no error — it does
not remain Uninitialized with a surfaced `StorageError`. -/
theorem setupPin_swallows_write_failure :
    (setupPin "1234" entropyA false emptyWorld).state.hasPin = true ∧
    (setupPin "1234" entropyA false emptyWorld).state.isUnlocked = true ∧
    (setupPin "1234" entropyA false emptyWorld).state.error = none ∧
    (setupPin "1234" entropyA false emptyWorld).storage.blob = none :=
  ⟨rfl, rfl, rfl, rfl⟩

/-- C3 counterexample: `updateItem` with an id absent from the collection
and the correct PIN reports no error (there is no `NotFoundError` in the
code) and still rewrites the persisted envelope, so the stored bytes are
not identical to their value before the call. -/
theorem updateItem_missing_id_counterexample :
    (updateItem missingItem "1234" entropyB true worldUnlocked).state.error
        = none ∧
    (updateItem missingItem "1234" entropyB true worldUnlocked).state.items
        = [sampleItem] ∧
    (updateItem missingItem "1234" entropyB true worldUnlocked).storage
        ≠ worldUnlocked.storage :=
  ⟨rfl, by decide, by decide⟩

/-- C3 (amended): `updateItem` with an id absent from the collection leaves
the in-memory collection and the error cell unchanged but silently
re-encrypts it and rewrites the envelope with a fresh salt and nonce;
`deleteItem` of an absent id behaves the same way. -/
theorem update_delete_absent_id_amended :
    (∀ (w : World) (it : VaultItem) (pin : String) (e : Entropy) (ok : Bool),
       (∀ x ∈ w.state.items, x.id ≠ it.id) →
       (updateItem it pin e ok w).state.items = w.state.items ∧
       (updateItem it pin e ok w).state.error = w.state.error ∧
       (updateItem it pin e ok w).storage
         = saveVault ok (encryptVault w.state.items pin e) w.storage)
    ∧ (∀ (w : World) (targetId pin : String) (e : Entropy) (ok : Bool),
       (∀ x ∈ w.state.items, x.id ≠ targetId) →
       (deleteItem targetId pin e ok w).state.items = w.state.items ∧
       (deleteItem targetId pin e ok w).storage
         = saveVault ok (encryptVault w.state.items pin e) w.storage) := by
  constructor
  · intro w it pin e ok h
    have hmap : w.state.items.map
        (fun x => if x.id = it.id then it else x) = w.state.items :=
      map_fixes_of_forall _ _ (fun x hx => if_neg (h x hx))
    refine ⟨?_, ?_, ?_⟩ <;> simp [updateItem, saveItems, hmap]
  · intro w targetId pin e ok h
    have hfil : w.state.items.filter (fun x => x.id ≠ targetId)
        = w.state.items :=
      filter_fixes_of_forall _ _ (fun x hx => by simpa using h x hx)
    constructor
    · show w.state.items.filter (fun x => x.id ≠ targetId) = w.state.items
      exact hfil
    · show saveVault ok
        (encryptVault (w.state.items.filter (fun x => x.id ≠ targetId)) pin e)
        w.storage = saveVault ok (encryptVault w.state.items pin e) w.storage
      rw [hfil]

/-- Witness for the amended C3 at concrete inputs. -/
theorem update_delete_absent_id_amended_witness :
    (updateItem missingItem "1234" entropyB true worldUnlocked).state.items
        = worldUnlocked.state.items ∧
    (deleteItem "missing" "1234" entropyB true worldUnlocked).storage
        = saveVault true
            (encryptVault worldUnlocked.state.items "1234" entropyB)
            worldUnlocked.storage :=
  ⟨(update_delete_absent_id_amended.1 worldUnlocked missingItem
      "1234" entropyB true (by decide)).1,
   (update_delete_absent_id_amended.2 worldUnlocked "missing"
      "1234" entropyB true (by decide)).2⟩

end MiniCofre
